import Mathlib

/-!
# server.js: credential cache, payment-intent endpoint and static files

A shallow embedding of `src/server.js`.

* JavaScript values are the values `JSON.parse` / `res.json()` can produce, plus
  `undefined`. JSON numbers are kept abstract in a type `ν`; the two operations the
  program applies to them (string conversion, truthiness) belong to the host.
* Library functions the program calls but does not define (`Date.parse`,
  `JSON.parse`, number formatting) are fields of a `Host`.
* `ToString`, which `Date.parse`, `parseInt` and the template literal of the
  `Authorization` header apply to their argument, throws a `TypeError` on an object
  that has its own `toString` member.
* Instants are integer milliseconds; a JavaScript number holding a time value is
  `Option Int`, with `none` for `NaN`. `Date.now()` and every non-`NaN` result of
  `Date.parse` are integers, and the rounding of `expiresAt - now` is monotone, so
  the comparison with `5 * 60 * 1000` is the one on integers.
* `parseInt` returns a double: the integer read is rounded to the nearest double,
  `Infinity` included (`JSNumber`).
* Strings are sequences of Unicode characters; the tests the program makes on
  them (`includes('..')`, white space, sign and digits of `parseInt`) concern
  characters that are single UTF-16 code units.
* `async` functions are run to completion one call at a time: each network
  exchange is an input of the call (`FetchResult`), and the `fetch` calls made are
  recorded in its outcome.
-/

namespace Server

/-! ## JavaScript values -/

/-- The values of the program: JSON values and `undefined`. The fields of an object
are its own properties, one per key, as `JSON.parse` builds them. -/
inductive JSValue (ν : Type) where
  | undefined : JSValue ν
  | null : JSValue ν
  | bool (b : Bool) : JSValue ν
  | number (n : ν) : JSValue ν
  | string (s : String) : JSValue ν
  | array (items : List (JSValue ν)) : JSValue ν
  | object (fields : List (String × JSValue ν)) : JSValue ν

/-- Exceptions the program can meet. -/
inductive JSError where
  /-- `fetch` rejected (network failure). -/
  | fetchFailed : JSError
  /-- `res.json()` or `JSON.parse` met text that is not JSON. -/
  | syntaxError : JSError
  /-- A property was read from `null` or `undefined`. -/
  | typeError : JSError
  deriving DecidableEq, Repr

/-- Library functions of the JavaScript host. -/
structure Host (ν : Type) where
  /-- `Number::toString` in radix 10. -/
  numberToString : ν → String
  /-- `ToBoolean` on a number: `false` exactly for `0`, `-0` and `NaN`. -/
  numberTruthy : ν → Bool
  /-- `Date.parse` on a string; `none` is `NaN`. -/
  dateParse : String → Option Int
  /-- `JSON.parse`; `none` is a `SyntaxError`. -/
  jsonParse : String → Option (JSValue ν)

variable {ν : Type}

/-- `ToBoolean`. -/
def truthy (H : Host ν) : JSValue ν → Bool
  | .undefined => false
  | .null => false
  | .bool b => b
  | .number n => H.numberTruthy n
  | .string s => s != ""
  | .array _ => true
  | .object _ => true

/-- Own-property lookup in the field list of an object. -/
def lookupField : List (String × JSValue ν) → String → Option (JSValue ν)
  | [], _ => none
  | (k, v) :: rest, name => if k = name then some v else lookupField rest name

/-- Property read `v.name` for a name that no prototype defines (`token`,
`expires_at`, `amount`, `id`, `client_secret`): a `TypeError` on `null` and
`undefined`, the own property of an object, `undefined` otherwise. -/
def getProp (v : JSValue ν) (name : String) : Except JSError (JSValue ν) :=
  match v with
  | .undefined => .error .typeError
  | .null => .error .typeError
  | .object fields => .ok ((lookupField fields name).getD .undefined)
  | _ => .ok .undefined

mutual
/-- `ToString`, which can throw. An array is its elements joined by commas
(`Array.prototype.join`). An object without an own `toString` member is
`[object Object]`; with one, which coming from JSON is never callable, the
conversion finds no method that yields a primitive and throws a `TypeError`. -/
def toStringJS (H : Host ν) : JSValue ν → Except JSError String
  | .undefined => .ok "undefined"
  | .null => .ok "null"
  | .bool b => .ok (if b then "true" else "false")
  | .number n => .ok (H.numberToString n)
  | .string s => .ok s
  | .array items => joinItems H items
  | .object fields =>
    match lookupField fields "toString" with
    | some _ => .error .typeError
    | none => .ok "[object Object]"
/-- `Array.prototype.join` with the separator `,`, converting the elements from
left to right. -/
def joinItems (H : Host ν) : List (JSValue ν) → Except JSError String
  | [] => .ok ""
  | [x] => itemString H x
  | x :: y :: rest =>
    match itemString H x with
    | .error e => .error e
    | .ok first =>
      match joinItems H (y :: rest) with
      | .error e => .error e
      | .ok others => .ok (first ++ "," ++ others)
/-- The string one array element contributes to `join`: empty for `null` and
`undefined`, its `ToString` otherwise. -/
def itemString (H : Host ν) : JSValue ν → Except JSError String
  | .undefined => .ok ""
  | .null => .ok ""
  | .bool b => .ok (if b then "true" else "false")
  | .number n => .ok (H.numberToString n)
  | .string s => .ok s
  | .array items => joinItems H items
  | .object fields =>
    match lookupField fields "toString" with
    | some _ => .error .typeError
    | none => .ok "[object Object]"
end

/-! ## `String.prototype.includes` and `parseInt` -/

/-- Whether the character list `s` contains `pat` as a contiguous run. -/
def includesChars (s pat : List Char) : Bool :=
  match s with
  | [] => pat.isEmpty
  | c :: cs => pat.isPrefixOf (c :: cs) || includesChars cs pat

/-- `s.includes(pat)`. -/
def includes (s pat : String) : Bool :=
  includesChars s.toList pat.toList

/-- White space and line terminators that `parseInt` skips (`StrWhiteSpaceChar`). -/
def isStrWhiteSpace (c : Char) : Bool :=
  let n := c.toNat
  n = 0x09 || n = 0x0A || n = 0x0B || n = 0x0C || n = 0x0D || n = 0x20 || n = 0xA0 ||
    n = 0x1680 || (0x2000 ≤ n && n ≤ 0x200A) || n = 0x2028 || n = 0x2029 ||
    n = 0x202F || n = 0x205F || n = 0x3000 || n = 0xFEFF

/-- Value of a decimal digit. -/
def digitValue (c : Char) : Option Nat :=
  if 48 ≤ c.toNat ∧ c.toNat ≤ 57 then some (c.toNat - 48) else none

/-- The values of the decimal digits a character list starts with. -/
def leadingDigits : List Char → List Nat
  | [] => []
  | c :: cs =>
    match digitValue c with
    | some d => d :: leadingDigits cs
    | none => []

/-- The number a list of decimal digits denotes, most significant first. -/
def decimalValue (ds : List Nat) : Nat :=
  ds.foldl (fun acc d => 10 * acc + d) 0

/-- The optional sign in front of the digits: whether it is a minus, and the text
after it. -/
def readSign : List Char → Bool × List Char
  | '-' :: r => (true, r)
  | '+' :: r => (false, r)
  | r => (false, r)

/-- The Numbers `parseInt` can return: `NaN`, a finite double with an integer
value (`-0` is `finite 0`), or an infinity with its sign. -/
inductive JSNumber where
  | nan : JSNumber
  | finite (z : Int) : JSNumber
  | infinity (negative : Bool) : JSNumber
  deriving DecidableEq, Repr

/-- How many low bits of `n` do not fit in the 53 bits of a double's significand;
`fuel` bounds the halvings. -/
def excessBits : Nat → Nat → Nat
  | 0, _ => 0
  | fuel + 1, n => if n < 2 ^ 53 then 0 else excessBits fuel (n / 2) + 1

/-- The double nearest to the natural number `n` (ties to the even significand):
`n` is cut to its 53 leading bits `q` and rounded on the bits `r` cut off; `none`
is `Infinity`, when the rounded value reaches `2 ^ 1024`, written `(2 ^ 256) ^ 4`. -/
def roundToDouble (n : Nat) : Option Nat :=
  let k := excessBits n n
  let q := n / 2 ^ k
  let r := n % 2 ^ k
  let q1 := if 2 * r > 2 ^ k ∨ (2 * r = 2 ^ k ∧ q % 2 = 1) then q + 1 else q
  if q1 * 2 ^ k < (2 ^ 256) ^ 4 then some (q1 * 2 ^ k) else none

/-- The integer `parseInt(s, 10)` reads from a string, before it is made a Number:
skip leading white space, read an optional sign, then the longest run of decimal
digits; `none` when there is no digit. -/
def readInteger (s : String) : Option Int :=
  let signed := readSign (s.toList.dropWhile isStrWhiteSpace)
  match leadingDigits signed.2 with
  | [] => none
  | d :: ds =>
    if signed.1 then some (-(decimalValue (d :: ds) : Int))
    else some (decimalValue (d :: ds) : Int)

/-- `parseInt(s, 10)` on a string: `NaN` when no integer can be read, else the
double nearest to the integer read. -/
def parseInt (s : String) : JSNumber :=
  match readInteger s with
  | none => .nan
  | some z =>
    match roundToDouble z.natAbs with
    | none => .infinity (decide (z < 0))
    | some m => .finite (if z < 0 then -(m : Int) else (m : Int))

/-- `x || 0` on the result of `parseInt`: `NaN`, `0` and `-0` are falsy. -/
def orZero : JSNumber → JSNumber
  | .nan => .finite 0
  | .finite z => if z = 0 then .finite 0 else .finite z
  | .infinity negative => .infinity negative

/-- Whether a Number is below zero. -/
def JSNumber.isNegative : JSNumber → Bool
  | .nan => false
  | .finite z => decide (z < 0)
  | .infinity negative => negative

/-! ## The credential cache (`tokenCache`, `getAccessToken`) -/

/-- The record held in `tokenCache`. -/
structure TokenCache (ν : Type) where
  token : JSValue ν
  /-- A JavaScript number; `none` is `NaN`. -/
  expiresAt : Option Int

/-- The initial value of `tokenCache`: `{ token: null, expiresAt: 0 }`. -/
def tokenCache : TokenCache ν :=
  { token := .null, expiresAt := some 0 }

/-- What `fetch` resolved with: the status (never inspected by the program) and the
result of `res.json()`, `none` when the body is not JSON. -/
structure Response (ν : Type) where
  status : Nat
  json : Option (JSValue ν)

/-- How one call of `fetch` ends, as the host decides: it rejects on a network
failure or when it refuses the request it is given, else it resolves with a
response. -/
inductive FetchResult (ν : Type) where
  | rejected : FetchResult ν
  | resolved (res : Response ν) : FetchResult ν

/-- A call of `fetch` made by the program. -/
inductive NetCall where
  /-- The POST to the authentication endpoint, with the two credential headers. -/
  | login : NetCall
  /-- The POST creating a payment intent: the `Authorization` header, the `amount`
  given to `JSON.stringify` for the body (an infinity is written `null`) and the
  instant `merchant_order_id` is built from (currency `EUR` and capture method
  `AUTOMATIC` are constants). -/
  | createIntent (authorization : String) (amount : JSNumber) (orderStamp : Int) : NetCall
  deriving DecidableEq, Repr

/-- The URL a request goes to. -/
def NetCall.url : NetCall → String
  | .login => "https://api.airwallex.com/api/v1/authentication/login"
  | .createIntent _ _ _ => "https://api.airwallex.com/api/v1/pa/payment_intents/create"

/-- The refresh margin `5 * 60 * 1000` ms. -/
def refreshSkew : Int := 5 * 60 * 1000

/-- The test `tokenCache.token && tokenCache.expiresAt - now > 5 * 60 * 1000`. A
comparison with `NaN` is false. -/
def isFresh (H : Host ν) (c : TokenCache ν) (now : Int) : Bool :=
  truthy H c.token &&
    (match c.expiresAt with
     | some e => decide (e - now > refreshSkew)
     | none => false)

/-- What a call of an `async` function leaves behind: the value it resolves with
or the error it rejects with, the cache, and the requests sent, in order. -/
structure Outcome (ν : Type) where
  result : Except JSError (JSValue ν)
  cache : TokenCache ν
  calls : List NetCall

/-- `getAccessToken()`, called at instant `now` with cache `c`; `net` is how the
authentication `fetch` ends if it is issued. Line 40 assigns the token before
line 42 evaluates `Date.parse(data.expires_at)`, whose conversion of the argument
to a string can throw: the token is then stored and the old expiry kept. -/
def getAccessToken (H : Host ν) (now : Int) (net : FetchResult ν)
    (c : TokenCache ν) : Outcome ν :=
  if isFresh H c now then
    { result := .ok c.token, cache := c, calls := [] }
  else
    match net with
    | .rejected => { result := .error .fetchFailed, cache := c, calls := [.login] }
    | .resolved res =>
      match res.json with
      | none => { result := .error .syntaxError, cache := c, calls := [.login] }
      | some data =>
        match getProp data "token" with
        | .error e => { result := .error e, cache := c, calls := [.login] }
        | .ok tok =>
          match getProp data "expires_at" with
          | .error e =>
            { result := .error e
              cache := { token := tok, expiresAt := c.expiresAt }
              calls := [.login] }
          | .ok exp =>
            match toStringJS H exp with
            | .error e =>
              { result := .error e
                cache := { token := tok, expiresAt := c.expiresAt }
                calls := [.login] }
            | .ok text =>
              { result := .ok tok
                cache := { token := tok, expiresAt := H.dateParse text }
                calls := [.login] }

/-- `createPaymentIntent(amount)`: `orderNow` is the instant read for
`merchant_order_id`, `payNet` how the payment-intent `fetch` ends. The template
literal of the `Authorization` header converts the token to a string, which can
throw before `fetch` is called. -/
def createPaymentIntent (H : Host ν) (now orderNow : Int) (authNet payNet : FetchResult ν)
    (amount : JSNumber) (c : TokenCache ν) : Outcome ν :=
  let t := getAccessToken H now authNet c
  match t.result with
  | .error e => { result := .error e, cache := t.cache, calls := t.calls }
  | .ok token =>
    match toStringJS H token with
    | .error e => { result := .error e, cache := t.cache, calls := t.calls }
    | .ok text =>
      let sent := t.calls ++ [NetCall.createIntent ("Bearer " ++ text) amount orderNow]
      match payNet with
      | .rejected => { result := .error .fetchFailed, cache := t.cache, calls := sent }
      | .resolved res =>
        match res.json with
        | none => { result := .error .syntaxError, cache := t.cache, calls := sent }
        | some data => { result := .ok data, cache := t.cache, calls := sent }

/-! ## The request handler -/

/-- The parts of the incoming request the handler reads: the method, the `pathname`
of `url.parse(req.url, true)` (`none` when it is `null`) and the concatenated body
chunks. -/
structure Request where
  method : String
  pathname : Option String
  body : String

/-- The surroundings of one request: the instants read by `Date.now()`, how the two
`fetch` calls end if issued, `__dirname`, and the file system as seen by
`fs.readFile` (`none` when it reports an error). -/
structure Env (ν : Type) where
  now : Int
  orderNow : Int
  authNet : FetchResult ν
  payNet : FetchResult ν
  dirname : String
  readFile : String → Option String

/-- What is passed to `res.end`: a text, the `JSON.stringify` of a value (which
leaves out members that are `undefined`), or the content of a file. -/
inductive Body (ν : Type) where
  | text (s : String) : Body ν
  | json (v : JSValue ν) : Body ν
  | file (data : String) : Body ν

/-- The response written: `res.statusCode` (200 unless set) and the body. -/
structure HttpResponse (ν : Type) where
  status : Nat
  body : Body ν

/-- What handling one request leaves behind: the response, or the exception that
escaped the handler; the cache; the requests sent; the paths given to
`fs.readFile`. -/
structure Handled (ν : Type) where
  response : Except JSError (HttpResponse ν)
  cache : TokenCache ν
  calls : List NetCall
  reads : List String

/-- The object of the `catch` branch. -/
def errorObject : JSValue ν :=
  .object [("error", .string "Erreur lors de la création de l’intention de paiement.")]

/-- The `catch` branch of the POST route: status 500 and the error object. -/
def caught (c : TokenCache ν) (calls : List NetCall) : Handled ν :=
  { response := .ok { status := 500, body := .json errorObject }
    cache := c, calls := calls, reads := [] }

/-- The `end` callback of the POST route (the `try` block and its `catch`).
`parseInt` first converts `payload.amount` to a string, which can throw. -/
def postCreatePaymentIntent (H : Host ν) (env : Env ν) (body : String)
    (c : TokenCache ν) : Handled ν :=
  match H.jsonParse (if body = "" then "\x7b\x7d" else body) with
  | none => caught c []
  | some payload =>
    match getProp payload "amount" with
    | .error _ => caught c []
    | .ok a =>
      match toStringJS H a with
      | .error _ => caught c []
      | .ok text =>
        let amount := orZero (parseInt text)
        let r := createPaymentIntent H env.now env.orderNow env.authNet env.payNet amount c
        match r.result with
        | .error _ => caught r.cache r.calls
        | .ok result =>
          match getProp result "id", getProp result "client_secret" with
          | .ok id, .ok secret =>
            { response := .ok { status := 200
                                body := .json (.object [("id", id),
                                                        ("client_secret", secret)]) }
              cache := r.cache, calls := r.calls, reads := [] }
          | .error _, _ => caught r.cache r.calls
          | .ok _, .error _ => caught r.cache r.calls

/-- The static-file branch for a GET request with pathname `pathname`. -/
def serveStatic (env : Env ν) (pathname : String) (c : TokenCache ν) : Handled ν :=
  let filePath := if pathname = "/" then "/index.html" else pathname
  if includes filePath ".." then
    { response := .ok { status := 400, body := .text "Requête invalide" }
      cache := c, calls := [], reads := [] }
  else
    let fullPath := env.dirname ++ "/public" ++ filePath
    match env.readFile fullPath with
    | none =>
      { response := .ok { status := 404, body := .text "Page non trouvée" }
        cache := c, calls := [], reads := [fullPath] }
    | some data =>
      { response := .ok { status := 200, body := .file data }
        cache := c, calls := [], reads := [fullPath] }

/-- The callback of `http.createServer`. A `null` pathname in the GET branch makes
`filePath.includes` throw, and nothing catches it. -/
def handler (H : Host ν) (env : Env ν) (req : Request) (c : TokenCache ν) : Handled ν :=
  if req.method = "POST" ∧ req.pathname = some "/create-payment-intent" then
    postCreatePaymentIntent H env req.body c
  else if req.method = "GET" then
    match req.pathname with
    | none => { response := .error .typeError, cache := c, calls := [], reads := [] }
    | some p => serveStatic env p c
  else
    { response := .ok { status := 404, body := .text "Ressource non trouvée" }
      cache := c, calls := [], reads := [] }

/-- The status of the response written, `none` when an exception escaped. -/
def Handled.status (h : Handled ν) : Option Nat :=
  match h.response with
  | .ok r => some r.status
  | .error _ => none

/-! ## Sequences of `getAccessToken` calls -/

/-- One call of `getAccessToken`: the instant it reads and how its `fetch` ends if
issued. -/
structure Call (ν : Type) where
  now : Int
  net : FetchResult ν

/-- The outcomes of successive calls, each starting from the cache the previous one
left. -/
def runCalls (H : Host ν) (c : TokenCache ν) : List (Call ν) → List (Outcome ν)
  | [] => []
  | k :: ks =>
    let o := getAccessToken H k.now k.net c
    o :: runCalls H o.cache ks

/-- The cache together with the instant of the call that fetched its token (`none`
while no token has been assigned). -/
structure Tracked (ν : Type) where
  cache : TokenCache ν
  issuedAt : Option Int

/-- Whether a call reaches line 40 and assigns `tokenCache.token`: the cache is not
fresh and the `fetch` is answered with JSON from which `token` can be read. -/
def assignsToken (H : Host ν) (c : TokenCache ν) (k : Call ν) : Bool :=
  !isFresh H c k.now &&
    (match k.net with
     | .rejected => false
     | .resolved res =>
       match res.json with
       | none => false
       | some data =>
         match getProp data "token" with
         | .error _ => false
         | .ok _ => true)

/-- One call on a tracked cache: a call that assigns the token has fetched it at
its instant. -/
def trackedStep (H : Host ν) (s : Tracked ν) (k : Call ν) : Tracked ν :=
  { cache := (getAccessToken H k.now k.net s.cache).cache
    issuedAt := if assignsToken H s.cache k then some k.now else s.issuedAt }

/-- The tracked cache after a sequence of calls from the initial cache. -/
def reached (H : Host ν) (ks : List (Call ν)) : Tracked ν :=
  ks.foldl (trackedStep H) { cache := tokenCache, issuedAt := none }

/-- The invariant of the data model: a token that is present comes with an expiry
that is a valid instant strictly after the instant the token was fetched. -/
def CacheInvariant (s : Tracked ν) : Prop :=
  s.cache.token ≠ .null →
    ∃ issued e, s.issuedAt = some issued ∧ s.cache.expiresAt = some e ∧ issued < e

/-- Whether a call's `fetch`, if issued, would store an expiry that parses: the
response is JSON other than `null`, its `expires_at` converts to a string and
`Date.parse` of that string is a number. -/
def storesParsableExpiry (H : Host ν) (net : FetchResult ν) : Bool :=
  match net with
  | .rejected => false
  | .resolved res =>
    match res.json with
    | none => false
    | some data =>
      match getProp data "expires_at" with
      | .error _ => false
      | .ok exp =>
        match toStringJS H exp with
        | .error _ => false
        | .ok text => (H.dateParse text).isSome

/-- The condition on a call under which what it stores satisfies the invariant: if
its `fetch` is answered with JSON from which `expires_at` can be read, that field
converts to a string that parses to an instant strictly later than the instant of
the call. -/
def ExpiresLater (H : Host ν) (k : Call ν) : Prop :=
  ∀ (st : Nat) (data x : JSValue ν),
    k.net = .resolved { status := st, json := some data } →
    getProp data "expires_at" = .ok x →
    ∃ text e, toStringJS H x = .ok text ∧ H.dateParse text = some e ∧ k.now < e

/-- The property of a tracked cache that every step keeps: no token assigned means
the initial cache, and otherwise the expiry is an instant after the instant the
token was fetched. -/
def StoredLater (s : Tracked ν) : Prop :=
  (s.issuedAt = none → s.cache = tokenCache) ∧
    ∀ i, s.issuedAt = some i → ∃ e, s.cache.expiresAt = some e ∧ i < e

/-! ## A host for concrete runs -/

/-- A host over integer-valued numbers that agrees with Node on the strings the
concrete runs give it: three ISO-8601 instants for `Date.parse` (the other texts
met, `soon` and `undefined`, are `NaN`) and five request bodies for `JSON.parse`. -/
def sampleHost : Host Int where
  numberToString := fun z => toString z
  numberTruthy := fun z => z != 0
  dateParse := fun s =>
    if s = "1970-01-01T00:30:00.000Z" then some 1800000
    else if s = "1970-01-01T00:00:00.000Z" then some 0
    else if s = "1970-01-01T01:00:00.000Z" then some 3600000
    else none
  jsonParse := fun s =>
    if s = "\x7b\x7d" then some (.object [])
    else if s = "\x7b\"amount\":\"-5\"\x7d" then some (.object [("amount", .string "-5")])
    else if s = "\x7b\"amount\":-5\x7d" then some (.object [("amount", .number (-5))])
    else if s = "\x7b\"amount\":89900\x7d" then some (.object [("amount", .number 89900)])
    else if s = "\x7b\"amount\":\x7b\"toString\":1\x7d\x7d" then
      some (.object [("amount", .object [("toString", .number 1)])])
    else none

/-! ## Inputs of the concrete runs -/

/-- The authentication response `{"token": "tok_A", "expires_at": <00:30 UTC>}` of
the scenario: a token expiring 30 minutes after instant 0. -/
def tokAResponse : FetchResult Int :=
  .resolved { status := 200
              json := some (.object [("token", .string "tok_A"),
                                     ("expires_at", .string "1970-01-01T00:30:00.000Z")]) }

/-- An authentication response whose token is the empty string, expiring at
01:00 UTC. -/
def emptyTokenResponse : FetchResult Int :=
  .resolved { status := 200
              json := some (.object [("token", .string ""),
                                     ("expires_at", .string "1970-01-01T01:00:00.000Z")]) }

/-- An authentication response whose `expires_at` is not a date. -/
def badExpiryResponse : FetchResult Int :=
  .resolved { status := 200
              json := some (.object [("token", .string "tok_A"),
                                     ("expires_at", .string "soon")]) }

/-- An error answer of the authentication endpoint: status 401 and a JSON body
with neither `token` nor `expires_at`. -/
def unauthorizedResponse : FetchResult Int :=
  .resolved { status := 401
              json := some (.object [("code", .string "unauthorized"),
                                     ("message", .string "Access denied")]) }

/-- The call at instant 1000 answered with `badExpiryResponse`. -/
def badExpiryCall : Call Int :=
  { now := 1000, net := badExpiryResponse }

/-- The call at instant 0 answered with `tokAResponse`. -/
def tokACall : Call Int :=
  { now := 0, net := tokAResponse }

/-- An answer of the payment-intent endpoint to a rejected request: status 401 and
a JSON body describing the error. -/
def intentErrorResponse : FetchResult Int :=
  .resolved { status := 401
              json := some (.object [("code", .string "unauthorized"),
                                     ("message", .string "Access denied")]) }

/-- An answer of the payment-intent endpoint carrying a created intent. -/
def intentCreatedResponse : FetchResult Int :=
  .resolved { status := 201
              json := some (.object [("id", .string "int_1"),
                                     ("client_secret", .string "sec_1"),
                                     ("status", .string "REQUIRES_PAYMENT_METHOD")]) }

/-- Surroundings in which the token `tok_A` is obtained and the intent is created. -/
def createdEnv : Env Int :=
  { now := 0, orderNow := 7, authNet := tokAResponse, payNet := intentCreatedResponse
    dirname := "/srv", readFile := fun _ => none }

/-- Surroundings in which the token `tok_A` is obtained and the payment-intent
endpoint then answers with an error. -/
def upstreamErrorEnv : Env Int :=
  { now := 0, orderNow := 7, authNet := tokAResponse, payNet := intentErrorResponse
    dirname := "/srv", readFile := fun _ => none }

/-- The request `POST /create-payment-intent` with body `{"amount":-5}`. -/
def negativeAmountRequest : Request :=
  { method := "POST", pathname := some "/create-payment-intent"
    body := "\x7b\"amount\":-5\x7d" }

/-- The request `POST /create-payment-intent` with body `{"amount":89900}`. -/
def paymentRequest : Request :=
  { method := "POST", pathname := some "/create-payment-intent"
    body := "\x7b\"amount\":89900\x7d" }

/-- The JSON object `{"toString": 1}`, which `ToString` cannot convert. -/
def unprintable : JSValue Int :=
  .object [("toString", .number 1)]

/-- An authentication response whose `expires_at` is `{"toString": 1}`. -/
def unprintableExpiryResponse : FetchResult Int :=
  .resolved { status := 200
              json := some (.object [("token", .string "tok_A"),
                                     ("expires_at", unprintable)]) }

/-- Surroundings in which the token obtained is `{"toString": 1}`. -/
def unprintableTokenEnv : Env Int :=
  { now := 0, orderNow := 7
    authNet := .resolved { status := 200
                           json := some (.object [("token", unprintable),
                             ("expires_at", .string "1970-01-01T00:30:00.000Z")]) }
    payNet := intentCreatedResponse
    dirname := "/srv", readFile := fun _ => none }

/-- The request `POST /create-payment-intent` with body `{"amount":{"toString":1}}`. -/
def unprintableAmountRequest : Request :=
  { method := "POST", pathname := some "/create-payment-intent"
    body := "\x7b\"amount\":\x7b\"toString\":1\x7d\x7d" }

/-- A cache holding an earlier token that expired at instant 0. -/
def expiredCache : TokenCache Int :=
  { token := .string "tok_old", expiresAt := some 0 }

/-! ## `getAccessToken`: one call -/

/-- The freshness test spelled out. -/
theorem isFresh_true_iff (H : Host ν) (c : TokenCache ν) (now : Int) :
    isFresh H c now = true ↔
      truthy H c.token = true ∧ ∃ e, c.expiresAt = some e ∧ e - now > 300000 := by
  unfold isFresh refreshSkew
  cases hE : c.expiresAt with
  | none => simp
  | some e => simp

/-- A fresh cache is answered from the cache. -/
theorem getAccessToken_of_fresh (H : Host ν) (c : TokenCache ν) (now : Int)
    (net : FetchResult ν) (h : isFresh H c now = true) :
    getAccessToken H now net c = { result := .ok c.token, cache := c, calls := [] } := by
  simp [getAccessToken, h]

/-- A call that fetches and is answered with a JSON object whose `expires_at`
converts to the string `text`. -/
theorem getAccessToken_of_object (H : Host ν) (c : TokenCache ν) (now : Int) (st : Nat)
    (fields : List (String × JSValue ν)) (text : String) (h : isFresh H c now = false)
    (htext : toStringJS H ((lookupField fields "expires_at").getD .undefined) = .ok text) :
    getAccessToken H now (.resolved { status := st, json := some (.object fields) }) c =
      { result := .ok ((lookupField fields "token").getD .undefined)
        cache := { token := (lookupField fields "token").getD .undefined
                   expiresAt := H.dateParse text }
        calls := [.login] } := by
  simp [getAccessToken, h, getProp, htext]

/-- A call on a cache that is not fresh sends the login request and nothing else. -/
theorem getAccessToken_calls_of_stale (H : Host ν) (c : TokenCache ν) (now : Int)
    (net : FetchResult ν) (h : isFresh H c now = false) :
    (getAccessToken H now net c).calls = [.login] := by
  unfold getAccessToken
  simp only [h]
  cases net with
  | rejected => rfl
  | resolved res =>
    obtain ⟨st, j⟩ := res
    cases j with
    | none => rfl
    | some data =>
      simp only [Bool.false_eq_true, if_false]
      split
      · rfl
      · split
        · rfl
        · split <;> rfl

/-- C1: when a token is cached (truthy, so a non-empty string) and `expiresAt - now`
exceeds 300000 ms, `getAccessToken` returns exactly the cached token, sends no
request and leaves `token` and `expiresAt` as they were. -/
theorem getAccessToken_returns_cached_token (H : Host ν) (c : TokenCache ν) (now e : Int)
    (net : FetchResult ν) (htoken : truthy H c.token = true)
    (hexpiry : c.expiresAt = some e) (hmargin : e - now > 300000) :
    (getAccessToken H now net c).result = .ok c.token ∧
      (getAccessToken H now net c).calls = [] ∧
      (getAccessToken H now net c).cache = c := by
  have hfresh : isFresh H c now = true :=
    (isFresh_true_iff H c now).2 ⟨htoken, e, hexpiry, hmargin⟩
  rw [getAccessToken_of_fresh H c now net hfresh]
  exact ⟨rfl, rfl, rfl⟩

/-- The scenario of C1: `tok_A` fetched at instant 0 with a 30-minute expiry; the
call 10 minutes later returns `tok_A` and sends nothing. -/
theorem getAccessToken_returns_cached_token_witness :
    (getAccessToken sampleHost 0 tokAResponse tokenCache).result = .ok (.string "tok_A") ∧
      (getAccessToken sampleHost 600000 tokAResponse
        (getAccessToken sampleHost 0 tokAResponse tokenCache).cache).result
          = .ok (.string "tok_A") ∧
      (getAccessToken sampleHost 600000 tokAResponse
        (getAccessToken sampleHost 0 tokAResponse tokenCache).cache).calls = [] :=
  ⟨rfl,
   (getAccessToken_returns_cached_token sampleHost
      (getAccessToken sampleHost 0 tokAResponse tokenCache).cache 600000 1800000
      tokAResponse (by decide) (by decide) (by decide)).1,
   (getAccessToken_returns_cached_token sampleHost
      (getAccessToken sampleHost 0 tokAResponse tokenCache).cache 600000 1800000
      tokAResponse (by decide) (by decide) (by decide)).2.1⟩

/-- C2: when no token is cached (the token is falsy) or `now ≥ expiresAt - 300000`,
one call of `getAccessToken` sends exactly one request, the login to the
authentication endpoint, however that request ends. -/
theorem getAccessToken_stale_fetches_once (H : Host ν) (c : TokenCache ν) (now : Int)
    (net : FetchResult ν)
    (hstale : truthy H c.token = false ∨ ∃ e, c.expiresAt = some e ∧ now ≥ e - 300000) :
    (getAccessToken H now net c).calls = [NetCall.login] ∧
      (getAccessToken H now net c).calls.map NetCall.url =
        ["https://api.airwallex.com/api/v1/authentication/login"] := by
  have hfresh : isFresh H c now = false := by
    rw [Bool.eq_false_iff]
    intro hf
    obtain ⟨ht, e, he, hgt⟩ := (isFresh_true_iff H c now).1 hf
    rcases hstale with h | ⟨e', he', hle⟩
    · rw [ht] at h
      exact Bool.noConfusion h
    · rw [he] at he'
      cases he'
      omega
  rw [getAccessToken_calls_of_stale H c now net hfresh]
  exact ⟨rfl, rfl⟩

/-- C2 at the initial cache (`token = null`, `expiresAt = 0`) and at the boundary
`expiresAt - now = 300000` of a cached `tok_A`. -/
theorem getAccessToken_stale_fetches_once_witness :
    (getAccessToken sampleHost 1000 tokAResponse tokenCache).calls = [NetCall.login] ∧
      (getAccessToken sampleHost 1500000 FetchResult.rejected
        { token := .string "tok_A", expiresAt := some 1800000 }).calls = [NetCall.login] :=
  ⟨(getAccessToken_stale_fetches_once sampleHost tokenCache 1000 tokAResponse
      (Or.inl rfl)).1,
   (getAccessToken_stale_fetches_once sampleHost
      { token := .string "tok_A", expiresAt := some 1800000 } 1500000 FetchResult.rejected
      (Or.inr ⟨1800000, rfl, by decide⟩)).1⟩

/-- C3 fails for an empty token: the initial cache is stale, the fetch succeeds with
token `""` and expiry 3600000, and at instant 1000 — where
`3600000 > 1000 + 300000` — the very next call sends a request again. -/
theorem getAccessToken_empty_token_refetched :
    (getAccessToken sampleHost 0 emptyTokenResponse tokenCache).result = .ok (.string "") ∧
      (getAccessToken sampleHost 0 emptyTokenResponse tokenCache).cache.expiresAt
        = some 3600000 ∧
      (3600000 : Int) > 1000 + 300000 ∧
      ¬ (getAccessToken sampleHost 1000 tokAResponse
          (getAccessToken sampleHost 0 emptyTokenResponse tokenCache).cache).calls = [] := by
  refine ⟨rfl, rfl, by decide, ?_⟩
  decide

/-- C3 amended: from a cache that is not fresh, a fetch answered with the object
`fields` holding token `t` and an `expires_at` whose text parses to `e` makes
`getAccessToken` return `t` and leaves the cache holding exactly `t` and `e`; and
if `t` is truthy (non-empty) and `e > now' + 300000` at the next call, that call
returns `t` without sending anything. -/
theorem getAccessToken_stores_fetched_token (H : Host ν) (c : TokenCache ν) (now : Int)
    (st : Nat) (fields : List (String × JSValue ν)) (t x : JSValue ν) (text : String)
    (e : Int) (hstale : isFresh H c now = false)
    (htoken : lookupField fields "token" = some t)
    (hfield : lookupField fields "expires_at" = some x)
    (htext : toStringJS H x = .ok text)
    (hparse : H.dateParse text = some e) :
    (getAccessToken H now (.resolved { status := st, json := some (.object fields) }) c).result
        = .ok t ∧
      (getAccessToken H now (.resolved { status := st, json := some (.object fields) }) c).cache
        = { token := t, expiresAt := some e } ∧
      ∀ (now' : Int) (net' : FetchResult ν), truthy H t = true → e > now' + 300000 →
        (getAccessToken H now' net'
          (getAccessToken H now
            (.resolved { status := st, json := some (.object fields) }) c).cache).result
            = .ok t ∧
        (getAccessToken H now' net'
          (getAccessToken H now
            (.resolved { status := st, json := some (.object fields) }) c).cache).calls
            = [] := by
  have hx : toStringJS H ((lookupField fields "expires_at").getD .undefined) = .ok text := by
    rw [hfield]
    exact htext
  rw [getAccessToken_of_object H c now st fields text hstale hx]
  simp only [htoken, hparse, Option.getD_some, true_and]
  intro now' net' ht hgt
  have hfresh : isFresh H { token := t, expiresAt := some e } now' = true :=
    (isFresh_true_iff H _ now').2 ⟨ht, e, rfl, by omega⟩
  rw [getAccessToken_of_fresh H _ now' net' hfresh]
  exact ⟨rfl, rfl⟩

/-- C3 amended, on the scenario: `tok_A` is stored from the initial cache, and the
call 10 minutes later returns it without a request. -/
theorem getAccessToken_stores_fetched_token_witness :
    (getAccessToken sampleHost 0 tokAResponse tokenCache).cache
        = { token := .string "tok_A", expiresAt := some 1800000 } ∧
      (getAccessToken sampleHost 600000 FetchResult.rejected
        (getAccessToken sampleHost 0 tokAResponse tokenCache).cache).result
        = .ok (.string "tok_A") ∧
      (getAccessToken sampleHost 600000 FetchResult.rejected
        (getAccessToken sampleHost 0 tokAResponse tokenCache).cache).calls = [] :=
  ⟨(getAccessToken_stores_fetched_token sampleHost tokenCache 0 200
      [("token", .string "tok_A"), ("expires_at", .string "1970-01-01T00:30:00.000Z")]
      (.string "tok_A") (.string "1970-01-01T00:30:00.000Z") "1970-01-01T00:30:00.000Z"
      1800000 (by decide) rfl rfl rfl (by decide)).2.1,
   (getAccessToken_stores_fetched_token sampleHost tokenCache 0 200
      [("token", .string "tok_A"), ("expires_at", .string "1970-01-01T00:30:00.000Z")]
      (.string "tok_A") (.string "1970-01-01T00:30:00.000Z") "1970-01-01T00:30:00.000Z"
      1800000 (by decide) rfl rfl rfl (by decide)).2.2 600000 FetchResult.rejected
      (by decide) (by decide)⟩

/-- C4: if the authentication fetch rejects, or its response body is not JSON, the
cache is left as it was; and in every state where the fetch is issued (the cache is
not fresh) `getAccessToken` fails with an error after exactly one request. -/
theorem getAccessToken_fetch_failure (H : Host ν) (c : TokenCache ν) (now : Int)
    (net : FetchResult ν)
    (hnet : net = .rejected ∨ ∃ st, net = .resolved { status := st, json := none }) :
    (getAccessToken H now net c).cache = c ∧
      (isFresh H c now = false →
        (∃ err, (getAccessToken H now net c).result = .error err) ∧
        (getAccessToken H now net c).calls = [NetCall.login]) := by
  cases hf : isFresh H c now with
  | true =>
    rw [getAccessToken_of_fresh H c now net hf]
    exact ⟨rfl, fun h => Bool.noConfusion h⟩
  | false =>
    rcases hnet with rfl | ⟨st, rfl⟩
    · simp [getAccessToken, hf]
    · simp [getAccessToken, hf]

/-- C4 on an expired cache whose fetch rejects: the cache is kept, the call fails
after one login request. -/
theorem getAccessToken_fetch_failure_witness :
    (getAccessToken sampleHost 1000 FetchResult.rejected expiredCache).cache = expiredCache ∧
      (∃ err, (getAccessToken sampleHost 1000 FetchResult.rejected expiredCache).result
          = .error err) ∧
      (getAccessToken sampleHost 1000 FetchResult.rejected expiredCache).calls
        = [NetCall.login] :=
  ⟨(getAccessToken_fetch_failure sampleHost expiredCache 1000 FetchResult.rejected
      (Or.inl rfl)).1,
   (getAccessToken_fetch_failure sampleHost expiredCache 1000 FetchResult.rejected
      (Or.inl rfl)).2 (by decide)⟩

/-- C5 fails: with `tok_old` cached and expired, a 401 answer whose body has neither
`token` nor `expires_at` makes `getAccessToken` resolve with `undefined`, not fail,
and the cached token is overwritten by `undefined`. -/
theorem getAccessToken_accepts_error_response :
    (getAccessToken sampleHost 1000 unauthorizedResponse expiredCache).result
        = .ok .undefined ∧
      (getAccessToken sampleHost 1000 unauthorizedResponse expiredCache).cache.token
        = .undefined ∧
      ¬ ((∃ err, (getAccessToken sampleHost 1000 unauthorizedResponse expiredCache).result
            = .error err) ∧
         (getAccessToken sampleHost 1000 unauthorizedResponse expiredCache).cache
            = expiredCache) := by
  refine ⟨rfl, rfl, ?_⟩
  rintro ⟨⟨err, herr⟩, -⟩
  have hok : (getAccessToken sampleHost 1000 unauthorizedResponse expiredCache).result
      = .ok .undefined := rfl
  rw [hok] at herr
  cases herr

/-- C5 amended: in every state where the fetch is issued, an answer with any status
(success or not) and a JSON object body does not make `getAccessToken` fail
whenever the `expires_at` field is absent or converts to a string: after exactly
one request it returns the body's `token` (`undefined` when the field is absent)
and overwrites the cache with that token and with `Date.parse` of that string (of
the text `undefined` when the field is absent). -/
theorem getAccessToken_ignores_status_and_fields (H : Host ν) (c : TokenCache ν) (now : Int)
    (st : Nat) (fields : List (String × JSValue ν)) (hstale : isFresh H c now = false) :
    (∀ text : String,
        toStringJS H ((lookupField fields "expires_at").getD .undefined) = .ok text →
        (getAccessToken H now
          (.resolved { status := st, json := some (.object fields) }) c).result
          = .ok ((lookupField fields "token").getD .undefined) ∧
        (getAccessToken H now
          (.resolved { status := st, json := some (.object fields) }) c).cache
          = { token := (lookupField fields "token").getD .undefined
              expiresAt := H.dateParse text } ∧
        (getAccessToken H now
          (.resolved { status := st, json := some (.object fields) }) c).calls
          = [NetCall.login]) ∧
      (lookupField fields "expires_at" = none →
        (getAccessToken H now
          (.resolved { status := st, json := some (.object fields) }) c).result
          = .ok ((lookupField fields "token").getD .undefined) ∧
        (getAccessToken H now
          (.resolved { status := st, json := some (.object fields) }) c).cache
          = { token := (lookupField fields "token").getD .undefined
              expiresAt := H.dateParse "undefined" }) ∧
      (lookupField fields "token" = none → lookupField fields "expires_at" = none →
        (getAccessToken H now
          (.resolved { status := st, json := some (.object fields) }) c).result
          = .ok .undefined ∧
        (getAccessToken H now
          (.resolved { status := st, json := some (.object fields) }) c).cache
          = { token := .undefined, expiresAt := H.dateParse "undefined" }) := by
  have habsent : lookupField fields "expires_at" = none →
      toStringJS H ((lookupField fields "expires_at").getD .undefined) = .ok "undefined" := by
    intro h
    rw [h]
    rfl
  refine ⟨?_, ?_, ?_⟩
  · intro text htext
    rw [getAccessToken_of_object H c now st fields text hstale htext]
    exact ⟨rfl, rfl, rfl⟩
  · intro hexp
    rw [getAccessToken_of_object H c now st fields "undefined" hstale (habsent hexp)]
    exact ⟨rfl, rfl⟩
  · intro htok hexp
    rw [getAccessToken_of_object H c now st fields "undefined" hstale (habsent hexp), htok]
    exact ⟨rfl, rfl⟩

/-- C5 amended, on the 401 answer received with an expired cache: `undefined` is
returned and stored, with `NaN` as expiry. -/
theorem getAccessToken_ignores_status_and_fields_witness :
    (getAccessToken sampleHost 1000 unauthorizedResponse expiredCache).result
        = .ok .undefined ∧
      (getAccessToken sampleHost 1000 unauthorizedResponse expiredCache).cache
        = { token := .undefined, expiresAt := none } :=
  (getAccessToken_ignores_status_and_fields sampleHost expiredCache 1000 401
    [("code", .string "unauthorized"), ("message", .string "Access denied")]
    (by decide)).2.2 rfl rfl

/-! ## `getAccessToken`: sequences of calls -/

/-- Reading a property fails only on `null` and `undefined`, whatever the name. -/
theorem getProp_ok_of_ok (data v : JSValue ν) (name other : String)
    (h : getProp data name = .ok v) : ∃ w, getProp data other = .ok w := by
  cases data <;> first | exact ⟨_, rfl⟩ | cases h

/-- A call that fetches, reads both fields and converts `expires_at` to `text`. -/
theorem getAccessToken_of_json (H : Host ν) (c : TokenCache ν) (now : Int) (st : Nat)
    (data tok x : JSValue ν) (text : String) (h : isFresh H c now = false)
    (htok : getProp data "token" = .ok tok) (hx : getProp data "expires_at" = .ok x)
    (htext : toStringJS H x = .ok text) :
    getAccessToken H now (.resolved { status := st, json := some data }) c =
      { result := .ok tok
        cache := { token := tok, expiresAt := H.dateParse text }
        calls := [.login] } := by
  simp [getAccessToken, h, htok, hx, htext]

/-- A call that fetches and cannot read `token` leaves the cache as it was. -/
theorem getAccessToken_of_unreadable (H : Host ν) (c : TokenCache ν) (now : Int) (st : Nat)
    (data : JSValue ν) (err : JSError) (h : isFresh H c now = false)
    (htok : getProp data "token" = .error err) :
    getAccessToken H now (.resolved { status := st, json := some data }) c =
      { result := .error err, cache := c, calls := [.login] } := by
  simp [getAccessToken, h, htok]

/-- A cache whose expiry is `NaN` is never fresh. -/
theorem isFresh_of_nan (H : Host ν) (c : TokenCache ν) (now : Int)
    (h : c.expiresAt = none) : isFresh H c now = false := by
  simp [isFresh, h]

/-- A call whose fetch stores no parsable expiry leaves a `NaN` expiry in place. -/
theorem expiresAt_stays_nan (H : Host ν) (c : TokenCache ν) (now : Int) (net : FetchResult ν)
    (h : c.expiresAt = none) (hnet : storesParsableExpiry H net = false) :
    (getAccessToken H now net c).cache.expiresAt = none := by
  have hf := isFresh_of_nan H c now h
  cases net with
  | rejected => simpa [getAccessToken, hf] using h
  | resolved res =>
    obtain ⟨st, j⟩ := res
    cases j with
    | none => simpa [getAccessToken, hf] using h
    | some data =>
      cases htok : getProp data "token" with
      | error err =>
        rw [getAccessToken_of_unreadable H c now st data err hf htok]
        exact h
      | ok tok =>
        obtain ⟨x, hx⟩ := getProp_ok_of_ok data tok "token" "expires_at" htok
        cases htext : toStringJS H x with
        | error err =>
          simp [getAccessToken, hf, htok, hx, htext, h]
        | ok text =>
          rw [getAccessToken_of_json H c now st data tok x text hf htok hx htext]
          simp only [storesParsableExpiry, hx, htext] at hnet
          cases hd : H.dateParse text with
          | none => rfl
          | some e =>
            rw [hd] at hnet
            cases hnet

/-- From a cache whose expiry is `NaN`, every call of a sequence sends the login
request, up to and including the first call whose fetch stores a parsable expiry. -/
theorem runCalls_all_fetch (H : Host ν) (ks : List (Call ν)) :
    ∀ (c : TokenCache ν) (last : Call ν), c.expiresAt = none →
      (∀ k ∈ ks, storesParsableExpiry H k.net = false) →
      ∀ o ∈ runCalls H c (ks ++ [last]), o.calls = [NetCall.login] := by
  induction ks with
  | nil =>
    intro c last h _ o ho
    simp only [List.nil_append, runCalls, List.mem_singleton] at ho
    rw [ho]
    exact getAccessToken_calls_of_stale H c last.now last.net (isFresh_of_nan H c last.now h)
  | cons k ks ih =>
    intro c last h hks o ho
    simp only [List.cons_append, runCalls, List.mem_cons] at ho
    rcases ho with rfl | ho
    · exact getAccessToken_calls_of_stale H c k.now k.net (isFresh_of_nan H c k.now h)
    · exact ih _ last
        (expiresAt_stays_nan H c k.now k.net h (hks k (List.mem_cons_self k ks)))
        (fun k' hk' => hks k' (List.mem_cons_of_mem k hk')) o ho

/-- A call that is answered from the cache leaves the tracked cache as it is. -/
theorem trackedStep_of_fresh (H : Host ν) (s : Tracked ν) (k : Call ν)
    (h : isFresh H s.cache k.now = true) : trackedStep H s k = s := by
  unfold trackedStep
  rw [getAccessToken_of_fresh H s.cache k.now k.net h]
  simp [assignsToken, h]

/-- One call keeps `StoredLater` when its answer expires later than it is made. -/
theorem trackedStep_storedLater (H : Host ν) (s : Tracked ν) (k : Call ν)
    (hs : StoredLater s) (hk : ExpiresLater H k) : StoredLater (trackedStep H s k) := by
  cases hf : isFresh H s.cache k.now with
  | true => rw [trackedStep_of_fresh H s k hf]; exact hs
  | false =>
    obtain ⟨now, net⟩ := k
    have hf' : isFresh H s.cache now = false := hf
    cases net with
    | rejected =>
      have hstep : trackedStep H s { now := now, net := .rejected } = s := by
        simp [trackedStep, assignsToken, getAccessToken, hf']
      rw [hstep]
      exact hs
    | resolved res =>
      obtain ⟨st, j⟩ := res
      cases j with
      | none =>
        have hstep : trackedStep H s
            { now := now, net := .resolved { status := st, json := none } } = s := by
          simp [trackedStep, assignsToken, getAccessToken, hf']
        rw [hstep]
        exact hs
      | some data =>
        cases htok : getProp data "token" with
        | error err =>
          have hstep : trackedStep H s
              { now := now, net := .resolved { status := st, json := some data } } = s := by
            simp [trackedStep, assignsToken, getAccessToken, hf', htok]
          rw [hstep]
          exact hs
        | ok tok =>
          obtain ⟨x, hx⟩ := getProp_ok_of_ok data tok "token" "expires_at" htok
          obtain ⟨text, e, htext, he, hlt⟩ := hk st data x rfl hx
          have hstep : trackedStep H s
              { now := now, net := .resolved { status := st, json := some data } } =
              { cache := { token := tok, expiresAt := some e }, issuedAt := some now } := by
            simp [trackedStep, assignsToken, hf', htok,
              getAccessToken_of_json H s.cache now st data tok x text hf' htok hx htext, he]
          rw [hstep]
          exact ⟨fun h => Option.noConfusion h,
            fun i hi => ⟨e, rfl, by cases hi; exact hlt⟩⟩

/-- A sequence of calls keeps `StoredLater`. -/
theorem foldl_storedLater (H : Host ν) (ks : List (Call ν)) :
    ∀ s : Tracked ν, StoredLater s → (∀ k ∈ ks, ExpiresLater H k) →
      StoredLater (ks.foldl (trackedStep H) s) := by
  induction ks with
  | nil => intro s hs _; exact hs
  | cons k ks ih =>
    intro s hs hks
    rw [List.foldl_cons]
    exact ih _ (trackedStep_storedLater H s k hs (hks k (List.mem_cons_self k ks)))
      (fun k' hk' => hks k' (List.mem_cons_of_mem k hk'))

/-- C6: when a fetch returns a token `t` with an `expires_at` whose text does not
parse, `getAccessToken` still returns (`t`, no error), and from then on every call,
at whatever instant, sends a new login request, up to and including the first call
whose fetch stores a parsable expiry. -/
theorem unparsable_expiry_refetches_every_call (H : Host ν) (c : TokenCache ν) (now : Int)
    (st : Nat) (fields : List (String × JSValue ν)) (t x : JSValue ν) (text : String)
    (hstale : isFresh H c now = false)
    (htoken : lookupField fields "token" = some t)
    (hfield : lookupField fields "expires_at" = some x)
    (htext : toStringJS H x = .ok text)
    (hnan : H.dateParse text = none) :
    (getAccessToken H now (.resolved { status := st, json := some (.object fields) }) c).result
        = .ok t ∧
      ∀ (ks : List (Call ν)) (last : Call ν),
        (∀ k ∈ ks, storesParsableExpiry H k.net = false) →
        ∀ o ∈ runCalls H
            (getAccessToken H now
              (.resolved { status := st, json := some (.object fields) }) c).cache
            (ks ++ [last]),
          o.calls = [NetCall.login] := by
  have hx : toStringJS H ((lookupField fields "expires_at").getD .undefined) = .ok text := by
    rw [hfield]
    exact htext
  rw [getAccessToken_of_object H c now st fields text hstale hx]
  simp only [htoken, hnan, Option.getD_some, true_and]
  intro ks last hks
  exact runCalls_all_fetch H ks _ last rfl hks

/-- C6 on the initial cache: the answer with `expires_at = "soon"` returns `tok_A`,
and the two calls that follow, one whose fetch rejects and one answered with a
parsable expiry, both send the login request. -/
theorem unparsable_expiry_refetches_every_call_witness :
    (getAccessToken sampleHost 1000 badExpiryResponse tokenCache).result
        = .ok (.string "tok_A") ∧
      ∀ o ∈ runCalls sampleHost
          (getAccessToken sampleHost 1000 badExpiryResponse tokenCache).cache
          ([{ now := 2000, net := FetchResult.rejected }] ++
            [{ now := 3000, net := tokAResponse }]),
        o.calls = [NetCall.login] :=
  ⟨(unparsable_expiry_refetches_every_call sampleHost tokenCache 1000 200
      [("token", .string "tok_A"), ("expires_at", .string "soon")]
      (.string "tok_A") (.string "soon") "soon" (by decide) rfl rfl rfl (by decide)).1,
   (unparsable_expiry_refetches_every_call sampleHost tokenCache 1000 200
      [("token", .string "tok_A"), ("expires_at", .string "soon")]
      (.string "tok_A") (.string "soon") "soon" (by decide) rfl rfl rfl (by decide)).2
      [{ now := 2000, net := FetchResult.rejected }] { now := 3000, net := tokAResponse }
      (fun k hk => by rw [List.mem_singleton] at hk; rw [hk]; rfl)⟩

/-- C7 fails: one call from the initial cache, answered with `tok_A` and an
`expires_at` that is not a date, reaches a state where the token is present and
`expiresAt` is `NaN`, so the invariant does not hold there. -/
theorem cache_invariant_broken_by_unparsable_expiry :
    (reached sampleHost [badExpiryCall]).cache.token = .string "tok_A" ∧
      (reached sampleHost [badExpiryCall]).cache.expiresAt = none ∧
      ¬ CacheInvariant (reached sampleHost [badExpiryCall]) := by
  refine ⟨rfl, rfl, ?_⟩
  intro hinv
  have hpresent : (reached sampleHost [badExpiryCall]).cache.token ≠ .null := by
    intro h
    have htok : (reached sampleHost [badExpiryCall]).cache.token = .string "tok_A" := rfl
    rw [htok] at h
    cases h
  obtain ⟨issued, e, -, he, -⟩ := hinv hpresent
  have hnan : (reached sampleHost [badExpiryCall]).cache.expiresAt = none := rfl
  rw [hnan] at he
  cases he

/-- C7 amended: in every state reached from the initial cache by calls whose
answers, whenever `expires_at` can be read from them, carry one that parses to an
instant strictly later than the instant of the call, a token that is present comes
with an `expiresAt` that is a valid instant strictly greater than the instant at
which the token was fetched. -/
theorem cache_invariant_of_later_expiries (H : Host ν) (ks : List (Call ν))
    (hks : ∀ k ∈ ks, ExpiresLater H k) : CacheInvariant (reached H ks) := by
  have hinit : StoredLater ({ cache := tokenCache, issuedAt := none } : Tracked ν) :=
    ⟨fun _ => rfl, fun i h => Option.noConfusion h⟩
  have hreached : StoredLater (reached H ks) := foldl_storedLater H ks _ hinit hks
  obtain ⟨hnone, hsome⟩ := hreached
  intro hpresent
  cases hi : (reached H ks).issuedAt with
  | none =>
    have hc := hnone hi
    exact absurd (by rw [hc]; rfl) hpresent
  | some i =>
    obtain ⟨e, he, hlt⟩ := hsome i hi
    exact ⟨i, e, rfl, he, hlt⟩

/-- C7 amended, on the scenario: after `tok_A` is fetched at instant 0 with expiry
1800000 the invariant holds. -/
theorem cache_invariant_of_later_expiries_witness :
    CacheInvariant (reached sampleHost [tokACall]) :=
  cache_invariant_of_later_expiries sampleHost [tokACall] (by
    intro k hk st data x hnet hx
    rw [List.mem_singleton] at hk
    subst hk
    simp only [tokACall, tokAResponse, FetchResult.resolved.injEq, Response.mk.injEq,
      Option.some.injEq] at hnet
    obtain ⟨-, rfl⟩ := hnet
    simp only [getProp, lookupField] at hx
    simp at hx
    subst hx
    exact ⟨"1970-01-01T00:30:00.000Z", 1800000, rfl, by decide, by decide⟩)

/-! ## The request handler -/

/-- The scan of `includesChars` finds exactly the contiguous sublists. -/
theorem includesChars_iff (s pat : List Char) :
    includesChars s pat = true ↔ pat <:+: s := by
  induction s with
  | nil => simp [includesChars, List.isEmpty_iff]
  | cons c cs ih =>
    simp only [includesChars, Bool.or_eq_true, List.isPrefixOf_iff_prefix, ih,
      List.infix_cons_iff]

/-- The test `s.includes(pat)` holds exactly when `s` is some text, then `pat`, then
some text. -/
theorem includes_iff (s pat : String) :
    includes s pat = true ↔ ∃ a b : String, s = a ++ pat ++ b := by
  unfold includes
  rw [includesChars_iff]
  constructor
  · rintro ⟨a, b, h⟩
    refine ⟨⟨a⟩, ⟨b⟩, ?_⟩
    apply String.ext
    simpa [String.toList] using h.symm
  · rintro ⟨a, b, rfl⟩
    exact ⟨a.toList, b.toList, by simp [String.toList]⟩

/-- The POST route reads no file. -/
theorem postCreatePaymentIntent_reads (H : Host ν) (env : Env ν) (body : String)
    (c : TokenCache ν) : (postCreatePaymentIntent H env body c).reads = [] := by
  unfold postCreatePaymentIntent
  split
  · rfl
  · split
    · rfl
    · split
      · rfl
      · dsimp only
        split
        · rfl
        · split <;> rfl

/-- The static branch reads at most the path under `public`, and only for a file
path without `..`. -/
theorem serveStatic_reads (env : Env ν) (p : String) (c : TokenCache ν) :
    (serveStatic env p c).reads =
      if includes (if p = "/" then "/index.html" else p) ".." then []
      else [env.dirname ++ "/public" ++ (if p = "/" then "/index.html" else p)] := by
  unfold serveStatic
  dsimp only
  cases includes (if p = "/" then "/index.html" else p) ".." with
  | true => rfl
  | false =>
    simp only [Bool.false_eq_true, if_false]
    split <;> rfl

/-- C8: a GET request whose pathname contains `..` is answered with status 400 and
no file is read; and every path the handler gives to `fs.readFile` is
`__dirname + '/public'` followed by a path without `..`, which is the request's
pathname (`/index.html` for the pathname `/`). -/
theorem handler_rejects_traversal (H : Host ν) (env : Env ν) (req : Request)
    (c : TokenCache ν) :
    (∀ p : String, req.method = "GET" → req.pathname = some p →
        (∃ a b : String, p = a ++ ".." ++ b) →
        (handler H env req c).response
          = .ok { status := 400, body := .text "Requête invalide" } ∧
        (handler H env req c).reads = []) ∧
      (∀ path ∈ (handler H env req c).reads,
        ∃ p : String, path = env.dirname ++ "/public" ++ p ∧
          (¬ ∃ a b : String, p = a ++ ".." ++ b) ∧
          (req.pathname = some p ∨ (req.pathname = some "/" ∧ p = "/index.html"))) := by
  constructor
  · intro p hm hp hdd
    have hinc : includes p ".." = true := (includes_iff p "..").2 hdd
    have hroot : p ≠ "/" := by
      rintro rfl
      exact absurd hinc (by decide)
    have hget : ¬ (req.method = "POST" ∧ req.pathname = some "/create-payment-intent") := by
      rintro ⟨hpost, -⟩
      rw [hm] at hpost
      exact absurd hpost (by decide)
    simp [handler, hget, hm, hp, serveStatic, hroot, hinc]
  · intro path hpath
    unfold handler at hpath
    split at hpath
    · rw [postCreatePaymentIntent_reads] at hpath
      cases hpath
    · split at hpath
      · cases hp : req.pathname with
        | none =>
          rw [hp] at hpath
          cases hpath
        | some p =>
          rw [hp] at hpath
          simp only [serveStatic_reads] at hpath
          by_cases hinc : includes (if p = "/" then "/index.html" else p) ".." = true
          · rw [if_pos hinc] at hpath
            cases hpath
          · rw [if_neg hinc, List.mem_singleton] at hpath
            refine ⟨if p = "/" then "/index.html" else p, hpath, ?_, ?_⟩
            · intro hdd
              exact hinc ((includes_iff _ "..").2 hdd)
            · by_cases hroot : p = "/"
              · right
                simp [hroot]
              · left
                simp [hroot]
      · cases hpath

/-- C8 on `GET /../secret.txt`: status 400 and no read. -/
theorem handler_rejects_traversal_witness :
    (handler sampleHost
        { now := 0, orderNow := 0, authNet := .rejected, payNet := .rejected,
          dirname := "/srv", readFile := fun _ => some "secret" }
        { method := "GET", pathname := some "/../secret.txt", body := "" } tokenCache).response
        = .ok { status := 400, body := .text "Requête invalide" } ∧
      (handler sampleHost
        { now := 0, orderNow := 0, authNet := .rejected, payNet := .rejected,
          dirname := "/srv", readFile := fun _ => some "secret" }
        { method := "GET", pathname := some "/../secret.txt", body := "" } tokenCache).reads
        = [] :=
  (handler_rejects_traversal sampleHost
    { now := 0, orderNow := 0, authNet := .rejected, payNet := .rejected,
      dirname := "/srv", readFile := fun _ => some "secret" }
    { method := "GET", pathname := some "/../secret.txt", body := "" } tokenCache).1
    "/../secret.txt" rfl rfl ⟨"/", "/secret.txt", by decide⟩

/-- On a finite Number, `x || 0` is the number itself. -/
theorem orZero_finite (z : Int) : orZero (.finite z) = .finite z := by
  show (if z = 0 then JSNumber.finite 0 else JSNumber.finite z) = JSNumber.finite z
  split_ifs with h
  · rw [h]
  · rfl

/-- The sign read is a minus only when the text starts with one. -/
theorem readSign_minus (t : List Char) (h : (readSign t).1 = true) :
    ∃ rest, t = '-' :: rest := by
  unfold readSign at h
  split at h
  · exact ⟨_, rfl⟩
  · cases h
  · cases h

/-- A negative integer is read only from a text that starts, after white space,
with a minus sign. -/
theorem readInteger_neg (s : String) (z : Int) (h : readInteger s = some z) (hz : z < 0) :
    ∃ rest, s.toList.dropWhile isStrWhiteSpace = '-' :: rest := by
  unfold readInteger at h
  dsimp only at h
  split at h
  · cases h
  · split_ifs at h with hsign
    · exact readSign_minus _ hsign
    · simp only [Option.some.injEq] at h
      omega

/-- The fuel `n` is enough: after dropping the excess bits of `n`, what is left fits
in 53 bits. -/
theorem excessBits_enough (fuel : Nat) :
    ∀ n : Nat, n ≤ fuel → n / 2 ^ excessBits fuel n < 2 ^ 53 := by
  induction fuel with
  | zero =>
    intro n hn
    have h0 : n = 0 := Nat.le_zero.mp hn
    rw [h0]
    exact Nat.lt_of_le_of_lt (Nat.div_le_self _ _) (by norm_num)
  | succ fuel ih =>
    intro n hn
    by_cases hsmall : n < 2 ^ 53
    · have hk : excessBits (fuel + 1) n = 0 := by
        show (if n < 2 ^ 53 then 0 else excessBits fuel (n / 2) + 1) = 0
        rw [if_pos hsmall]
      rw [hk, pow_zero, Nat.div_one]
      exact hsmall
    · have hk : excessBits (fuel + 1) n = excessBits fuel (n / 2) + 1 := by
        show (if n < 2 ^ 53 then 0 else excessBits fuel (n / 2) + 1) = _
        rw [if_neg hsmall]
      have hhalf : n / 2 ≤ fuel := by
        have h2 : 2 ≤ n := le_trans (by norm_num) (Nat.le_of_not_lt hsmall)
        omega
      rw [hk, pow_succ, Nat.mul_comm, ← Nat.div_div_eq_div_mul]
      exact ih (n / 2) hhalf

/-- A natural number below `2 ^ 53` is a double. -/
theorem roundToDouble_small (n : Nat) (h : n < 2 ^ 53) : roundToDouble n = some n := by
  have hk : excessBits n n = 0 := by
    cases n with
    | zero => rfl
    | succ m =>
      show (if m + 1 < 2 ^ 53 then 0 else excessBits m ((m + 1) / 2) + 1) = 0
      rw [if_pos h]
  have hbig : n < (2 ^ 256) ^ 4 := lt_of_lt_of_le h (by norm_num)
  unfold roundToDouble
  simp only [hk, pow_zero, Nat.div_one, Nat.mod_one, Nat.mul_zero, Nat.mul_one]
  have hq : (if 0 > 1 ∨ 0 = 1 ∧ n % 2 = 1 then n + 1 else n) = n :=
    if_neg (by omega)
  rw [hq, if_pos hbig]

/-- When the integer read is below `2 ^ 53` in magnitude, `parseInt` returns it. -/
theorem parseInt_small (s : String) (z : Int) (h : readInteger s = some z)
    (hz : z.natAbs < 2 ^ 53) : parseInt s = .finite z := by
  unfold parseInt
  rw [h]
  simp only [roundToDouble_small z.natAbs hz]
  congr 1
  split_ifs with hneg <;> omega

/-- A Number below zero comes out of `parseInt(s, 10) || 0` only when the integer
read from `s` is negative. -/
theorem parseInt_negative (s : String) (h : (orZero (parseInt s)).isNegative = true) :
    ∃ z, readInteger s = some z ∧ z < 0 := by
  unfold parseInt at h
  cases hr : readInteger s with
  | none =>
    rw [hr] at h
    cases h
  | some z =>
    refine ⟨z, rfl, ?_⟩
    rw [hr] at h
    dsimp only at h
    cases hd : roundToDouble z.natAbs with
    | none =>
      rw [hd] at h
      simpa [orZero, JSNumber.isNegative] using h
    | some m =>
      rw [hd] at h
      simp only [orZero_finite, JSNumber.isNegative, decide_eq_true_eq] at h
      by_contra hge
      rw [if_neg hge] at h
      omega

/-- The only request `getAccessToken` sends is the login. -/
theorem getAccessToken_calls_login (H : Host ν) (c : TokenCache ν) (now : Int)
    (net : FetchResult ν) : ∀ x ∈ (getAccessToken H now net c).calls, x = NetCall.login := by
  intro x hx
  cases hf : isFresh H c now with
  | true =>
    rw [getAccessToken_of_fresh H c now net hf] at hx
    cases hx
  | false =>
    rw [getAccessToken_calls_of_stale H c now net hf, List.mem_singleton] at hx
    exact hx

/-- The requests of `createPaymentIntent`: those of `getAccessToken`, then, if a
token was obtained and converts to a string, the payment-intent request carrying
that token and the amount. -/
theorem createPaymentIntent_calls (H : Host ν) (now orderNow : Int)
    (authNet payNet : FetchResult ν) (amount : JSNumber) (c : TokenCache ν) :
    (createPaymentIntent H now orderNow authNet payNet amount c).calls =
      match (getAccessToken H now authNet c).result with
      | .error _ => (getAccessToken H now authNet c).calls
      | .ok token =>
        match toStringJS H token with
        | .error _ => (getAccessToken H now authNet c).calls
        | .ok text =>
          (getAccessToken H now authNet c).calls ++
            [NetCall.createIntent ("Bearer " ++ text) amount orderNow] := by
  unfold createPaymentIntent
  dsimp only
  split
  · rfl
  · split
    · rfl
    · cases payNet with
      | rejected => rfl
      | resolved res =>
        obtain ⟨st, j⟩ := res
        cases j <;> rfl

/-- The result of `createPaymentIntent`. -/
theorem createPaymentIntent_result (H : Host ν) (now orderNow : Int)
    (authNet payNet : FetchResult ν) (amount : JSNumber) (c : TokenCache ν) :
    (createPaymentIntent H now orderNow authNet payNet amount c).result =
      match (getAccessToken H now authNet c).result with
      | .error err => .error err
      | .ok token =>
        match toStringJS H token with
        | .error err => .error err
        | .ok _ =>
          match payNet with
          | .rejected => .error .fetchFailed
          | .resolved res =>
            match res.json with
            | none => .error .syntaxError
            | some data => .ok data := by
  unfold createPaymentIntent
  dsimp only
  split
  · rfl
  · split
    · rfl
    · cases payNet with
      | rejected => rfl
      | resolved res =>
        obtain ⟨st, j⟩ := res
        cases j <;> rfl

/-- The POST route once the body has parsed, `amount` has been read and converted
to the string `text`. -/
theorem postCreatePaymentIntent_of_payload (H : Host ν) (env : Env ν) (body : String)
    (c : TokenCache ν) (payload a : JSValue ν) (text : String)
    (hbody : H.jsonParse (if body = "" then "\x7b\x7d" else body) = some payload)
    (ha : getProp payload "amount" = .ok a) (htext : toStringJS H a = .ok text) :
    postCreatePaymentIntent H env body c =
      match (createPaymentIntent H env.now env.orderNow env.authNet env.payNet
              (orZero (parseInt text)) c).result with
      | .error _ =>
        caught
          (createPaymentIntent H env.now env.orderNow env.authNet env.payNet
            (orZero (parseInt text)) c).cache
          (createPaymentIntent H env.now env.orderNow env.authNet env.payNet
            (orZero (parseInt text)) c).calls
      | .ok result =>
        match getProp result "id", getProp result "client_secret" with
        | .ok id, .ok secret =>
          { response := .ok { status := 200
                              body := .json (.object [("id", id), ("client_secret", secret)]) }
            cache := (createPaymentIntent H env.now env.orderNow env.authNet env.payNet
              (orZero (parseInt text)) c).cache
            calls := (createPaymentIntent H env.now env.orderNow env.authNet env.payNet
              (orZero (parseInt text)) c).calls
            reads := [] }
        | .error _, _ =>
          caught
            (createPaymentIntent H env.now env.orderNow env.authNet env.payNet
              (orZero (parseInt text)) c).cache
            (createPaymentIntent H env.now env.orderNow env.authNet env.payNet
              (orZero (parseInt text)) c).calls
        | .ok _, .error _ =>
          caught
            (createPaymentIntent H env.now env.orderNow env.authNet env.payNet
              (orZero (parseInt text)) c).cache
            (createPaymentIntent H env.now env.orderNow env.authNet env.payNet
              (orZero (parseInt text)) c).calls := by
  unfold postCreatePaymentIntent
  simp only [hbody, ha, htext]

/-- The POST route when the body is not JSON, `amount` cannot be read, or `amount`
does not convert to a string: the `catch` branch, nothing sent. -/
theorem postCreatePaymentIntent_of_bad_request (H : Host ν) (env : Env ν) (body : String)
    (c : TokenCache ν)
    (hbad : H.jsonParse (if body = "" then "\x7b\x7d" else body) = none ∨
      ∃ payload, H.jsonParse (if body = "" then "\x7b\x7d" else body) = some payload ∧
        ((∃ err, getProp payload "amount" = .error err) ∨
          ∃ a err, getProp payload "amount" = .ok a ∧ toStringJS H a = .error err)) :
    postCreatePaymentIntent H env body c = caught c [] := by
  unfold postCreatePaymentIntent
  rcases hbad with h | ⟨payload, h, ⟨err, herr⟩ | ⟨a, err, ha, herr⟩⟩
  · simp only [h]
  · simp only [h, herr]
  · simp only [h, ha, herr]

/-- The requests of the POST route: none unless the body parsed and `amount` could
be read and converted, else those of `createPaymentIntent` called with the coerced
amount. -/
theorem postCreatePaymentIntent_calls (H : Host ν) (env : Env ν) (body : String)
    (c : TokenCache ν) :
    (postCreatePaymentIntent H env body c).calls =
      match H.jsonParse (if body = "" then "\x7b\x7d" else body) with
      | none => []
      | some payload =>
        match getProp payload "amount" with
        | .error _ => []
        | .ok a =>
          match toStringJS H a with
          | .error _ => []
          | .ok text =>
            (createPaymentIntent H env.now env.orderNow env.authNet env.payNet
              (orZero (parseInt text)) c).calls := by
  cases hbody : H.jsonParse (if body = "" then "\x7b\x7d" else body) with
  | none =>
    rw [postCreatePaymentIntent_of_bad_request H env body c (Or.inl hbody)]
    rfl
  | some payload =>
    cases ha : getProp payload "amount" with
    | error err =>
      rw [postCreatePaymentIntent_of_bad_request H env body c
        (Or.inr ⟨payload, hbody, Or.inl ⟨err, ha⟩⟩)]
      simp only [ha]
      rfl
    | ok a =>
      cases htext : toStringJS H a with
      | error err =>
        rw [postCreatePaymentIntent_of_bad_request H env body c
          (Or.inr ⟨payload, hbody, Or.inr ⟨a, err, ha, htext⟩⟩)]
        simp only [ha, htext]
        rfl
      | ok text =>
        rw [postCreatePaymentIntent_of_payload H env body c payload a text hbody ha htext]
        simp only [ha, htext]
        split
        · rfl
        · split <;> rfl

/-- The handler on the POST route. -/
theorem handler_of_post (H : Host ν) (env : Env ν) (req : Request) (c : TokenCache ν)
    (hm : req.method = "POST") (hp : req.pathname = some "/create-payment-intent") :
    handler H env req c = postCreatePaymentIntent H env req.body c := by
  simp [handler, hm, hp]

/-- C9 fails: the body `{"amount":-5}` makes the handler send a payment-intent
request whose amount is `-5`, which is not a non-negative integer. -/
theorem handler_passes_negative_amount :
    NetCall.createIntent "Bearer tok_A" (.finite (-5)) 7 ∈
        (handler sampleHost createdEnv negativeAmountRequest tokenCache).calls ∧
      (JSNumber.finite (-5)).isNegative = true ∧
      ¬ (0 ≤ (-5 : Int)) := by
  refine ⟨?_, rfl, by decide⟩
  have hcalls : (handler sampleHost createdEnv negativeAmountRequest tokenCache).calls
      = [NetCall.login, NetCall.createIntent "Bearer tok_A" (.finite (-5)) 7] := by decide
  rw [hcalls]
  exact List.mem_cons_of_mem _ (List.mem_singleton.2 rfl)

/-- C9 amended: for every body posted to `/create-payment-intent` that parses to a
JSON value `payload`, the amount of every payment-intent request is the Number
`parseInt(text, 10) || 0` for the text of `payload.amount`, and it may be negative:
it is 0 when that field is absent or no integer can be read from its text
(optional sign, then leading decimal digits); it is exactly the integer read when
that integer is below `2 ^ 53` in magnitude; it is negative only when the text
starts, after white space, with a minus sign. When the token is obtained and both
it and the amount convert to strings, such a request is sent. -/
theorem handler_amount_is_parsed_integer (H : Host ν) (env : Env ν) (req : Request)
    (c : TokenCache ν) (payload : JSValue ν)
    (hm : req.method = "POST") (hp : req.pathname = some "/create-payment-intent")
    (hbody : H.jsonParse (if req.body = "" then "\x7b\x7d" else req.body) = some payload) :
    (∀ (auth : String) (amt : JSNumber) (stamp : Int),
        NetCall.createIntent auth amt stamp ∈ (handler H env req c).calls →
        ∃ (a : JSValue ν) (text : String),
          getProp payload "amount" = .ok a ∧ toStringJS H a = .ok text ∧
          amt = orZero (parseInt text) ∧
          (a = .undefined → amt = .finite 0) ∧
          (readInteger text = none → amt = .finite 0) ∧
          (∀ z : Int, readInteger text = some z → z.natAbs < 2 ^ 53 → amt = .finite z) ∧
          (amt.isNegative = true →
            ∃ rest, text.toList.dropWhile isStrWhiteSpace = '-' :: rest)) ∧
      (∀ (a token : JSValue ν) (text bearer : String),
        getProp payload "amount" = .ok a → toStringJS H a = .ok text →
        (getAccessToken H env.now env.authNet c).result = .ok token →
        toStringJS H token = .ok bearer →
        NetCall.createIntent ("Bearer " ++ bearer) (orZero (parseInt text)) env.orderNow ∈
          (handler H env req c).calls) := by
  rw [handler_of_post H env req c hm hp, postCreatePaymentIntent_calls, hbody]
  constructor
  · intro auth amt stamp hmem
    cases ha : getProp payload "amount" with
    | error err =>
      simp only [ha] at hmem
      cases hmem
    | ok a =>
      cases htext : toStringJS H a with
      | error err =>
        simp only [ha, htext] at hmem
        cases hmem
      | ok text =>
        simp only [ha, htext, createPaymentIntent_calls] at hmem
        have hamt : amt = orZero (parseInt text) := by
          cases hr : (getAccessToken H env.now env.authNet c).result with
          | error err =>
            simp only [hr] at hmem
            exact NetCall.noConfusion
              (getAccessToken_calls_login H c env.now env.authNet _ hmem)
          | ok token =>
            cases hb : toStringJS H token with
            | error err =>
              simp only [hr, hb] at hmem
              exact NetCall.noConfusion
                (getAccessToken_calls_login H c env.now env.authNet _ hmem)
            | ok bearer =>
              simp only [hr, hb, List.mem_append, List.mem_singleton] at hmem
              rcases hmem with hlogin | hsent
              · exact NetCall.noConfusion
                  (getAccessToken_calls_login H c env.now env.authNet _ hlogin)
              · injection hsent with _ h2 _
        refine ⟨a, text, rfl, htext, hamt, ?_, ?_, ?_, ?_⟩
        · intro hundef
          rw [hundef] at htext
          have htext' : text = "undefined" := by
            injection htext with h
            exact h.symm
          have hnan : parseInt "undefined" = .nan := by decide
          rw [hamt, htext', hnan]
          rfl
        · intro hnone
          have hnan : parseInt text = .nan := by
            unfold parseInt
            rw [hnone]
          rw [hamt, hnan]
          rfl
        · intro z hz hsmall
          rw [hamt, parseInt_small text z hz hsmall, orZero_finite]
        · intro hneg
          rw [hamt] at hneg
          obtain ⟨z, hz, hlt⟩ := parseInt_negative text hneg
          exact readInteger_neg text z hz hlt
  · intro a token text bearer ha htext hr hb
    simp only [ha, htext, createPaymentIntent_calls, hr, hb]
    exact List.mem_append_right _ (List.mem_singleton.2 rfl)

/-- C9 amended, on the body `{"amount":89900}`: the request sent carries 89900. -/
theorem handler_amount_is_parsed_integer_witness :
    NetCall.createIntent "Bearer tok_A" (.finite 89900) 7 ∈
      (handler sampleHost createdEnv paymentRequest tokenCache).calls :=
  (handler_amount_is_parsed_integer sampleHost createdEnv paymentRequest tokenCache
    (.object [("amount", .number 89900)]) rfl rfl rfl).2
    (.number 89900) (.string "tok_A") "89900" "tok_A" rfl rfl rfl rfl

/-- C10 fails: `tok_A` is obtained, then the payment-intent endpoint answers the
creation request with status 401 and an error body; the handler responds with
status 200 and an object whose `id` and `client_secret` are `undefined`, not with
status 500. -/
theorem handler_answers_200_on_upstream_error :
    (handler sampleHost upstreamErrorEnv paymentRequest tokenCache).calls
        = [NetCall.login, NetCall.createIntent "Bearer tok_A" (.finite 89900) 7] ∧
      (handler sampleHost upstreamErrorEnv paymentRequest tokenCache).status = some 200 ∧
      ¬ (handler sampleHost upstreamErrorEnv paymentRequest tokenCache).status = some 500 := by
  refine ⟨by decide, by decide, by decide⟩

/-- C10 amended: for every POST to `/create-payment-intent` the handler always
writes a response (no exception escapes). The response has status 500 and the
error object when the body is not JSON, when `getAccessToken` fails, or when the
payment-intent fetch rejects or its body is not JSON. When the amount field and
the token convert to strings, the token is obtained and the payment-intent
endpoint answers with a JSON object, whatever its status, the response has status
200 and its body is exactly `id` and `client_secret` taken from that object. -/
theorem handler_post_responses (H : Host ν) (env : Env ν) (req : Request)
    (c : TokenCache ν)
    (hm : req.method = "POST") (hp : req.pathname = some "/create-payment-intent") :
    (∃ r, (handler H env req c).response = .ok r) ∧
      (H.jsonParse (if req.body = "" then "\x7b\x7d" else req.body) = none →
        (handler H env req c).response
          = .ok { status := 500, body := .json errorObject }) ∧
      ((∃ err, (getAccessToken H env.now env.authNet c).result = .error err) →
        (handler H env req c).response
          = .ok { status := 500, body := .json errorObject }) ∧
      ((env.payNet = .rejected ∨
          ∃ st, env.payNet = .resolved { status := st, json := none }) →
        (handler H env req c).response
          = .ok { status := 500, body := .json errorObject }) ∧
      (∀ (payload a token : JSValue ν) (text bearer : String) (st : Nat)
          (fields : List (String × JSValue ν)),
        H.jsonParse (if req.body = "" then "\x7b\x7d" else req.body) = some payload →
        getProp payload "amount" = .ok a →
        toStringJS H a = .ok text →
        (getAccessToken H env.now env.authNet c).result = .ok token →
        toStringJS H token = .ok bearer →
        env.payNet = .resolved { status := st, json := some (.object fields) } →
        (handler H env req c).response
          = .ok { status := 200
                  body := .json (.object
                    [("id", (lookupField fields "id").getD .undefined),
                     ("client_secret",
                       (lookupField fields "client_secret").getD .undefined)]) }) := by
  rw [handler_of_post H env req c hm hp]
  cases hbody : H.jsonParse (if req.body = "" then "\x7b\x7d" else req.body) with
  | none =>
    rw [postCreatePaymentIntent_of_bad_request H env req.body c (Or.inl hbody)]
    refine ⟨⟨_, rfl⟩, fun _ => rfl, fun _ => rfl, fun _ => rfl, ?_⟩
    intro payload a token text bearer st fields h
    cases h
  | some payload =>
    cases ha : getProp payload "amount" with
    | error err =>
      rw [postCreatePaymentIntent_of_bad_request H env req.body c
        (Or.inr ⟨payload, hbody, Or.inl ⟨err, ha⟩⟩)]
      refine ⟨⟨_, rfl⟩, fun h => Option.noConfusion h, fun _ => rfl, fun _ => rfl, ?_⟩
      intro payload' a' token text bearer st fields h ha'
      cases h
      rw [ha] at ha'
      cases ha'
    | ok a =>
      cases htext : toStringJS H a with
      | error err =>
        rw [postCreatePaymentIntent_of_bad_request H env req.body c
          (Or.inr ⟨payload, hbody, Or.inr ⟨a, err, ha, htext⟩⟩)]
        refine ⟨⟨_, rfl⟩, fun h => Option.noConfusion h, fun _ => rfl, fun _ => rfl, ?_⟩
        intro payload' a' token text bearer st fields h ha' htext'
        cases h
        rw [ha] at ha'
        cases ha'
        rw [htext] at htext'
        cases htext'
      | ok text =>
        rw [postCreatePaymentIntent_of_payload H env req.body c payload a text hbody ha htext]
        cases hr : (getAccessToken H env.now env.authNet c).result with
        | error err =>
          simp only [createPaymentIntent_result, hr]
          refine ⟨⟨_, rfl⟩, fun h => Option.noConfusion h, fun _ => rfl, fun _ => rfl, ?_⟩
          intro payload' a' token text' bearer st fields _ _ _ h
          cases h
        | ok token =>
          cases hb : toStringJS H token with
          | error err =>
            simp only [createPaymentIntent_result, hr, hb]
            refine ⟨⟨_, rfl⟩, fun h => Option.noConfusion h, fun _ => rfl, fun _ => rfl, ?_⟩
            intro payload' a' token' text' bearer st fields _ _ _ h hb'
            cases h
            rw [hb] at hb'
            cases hb'
          | ok bearer =>
            cases hpay : env.payNet with
            | rejected =>
              simp only [createPaymentIntent_result, hr, hb, hpay]
              refine ⟨⟨_, rfl⟩, fun h => Option.noConfusion h, fun _ => rfl, fun _ => rfl, ?_⟩
              intro payload' a' token' text' bearer' st fields _ _ _ _ _ h
              cases h
            | resolved res =>
              obtain ⟨st, j⟩ := res
              cases j with
              | none =>
                simp only [createPaymentIntent_result, hr, hb, hpay]
                refine ⟨⟨_, rfl⟩, fun h => Option.noConfusion h, fun _ => rfl,
                  fun _ => rfl, ?_⟩
                intro payload' a' token' text' bearer' st' fields _ _ _ _ _ h
                cases h
              | some data =>
                simp only [createPaymentIntent_result, hr, hb, hpay]
                refine ⟨?_, fun h => Option.noConfusion h, ?_, ?_, ?_⟩
                · cases data <;> exact ⟨_, rfl⟩
                · rintro ⟨err, herr⟩
                  cases herr
                · rintro (h | ⟨st', h⟩) <;> cases h
                · intro payload' a' token' text' bearer' st' fields _ _ _ _ _ h
                  cases h
                  rfl

/-- C10 amended, on a created intent: status 200 with `int_1` and `sec_1`. -/
theorem handler_post_responses_witness :
    (∃ r, (handler sampleHost createdEnv paymentRequest tokenCache).response = .ok r) ∧
      (handler sampleHost createdEnv paymentRequest tokenCache).response
        = .ok { status := 200
                body := .json (.object [("id", .string "int_1"),
                                        ("client_secret", .string "sec_1")]) } :=
  ⟨(handler_post_responses sampleHost createdEnv paymentRequest tokenCache rfl rfl).1,
   (handler_post_responses sampleHost createdEnv paymentRequest tokenCache rfl rfl).2.2.2.2
     (.object [("amount", .number 89900)]) (.number 89900) (.string "tok_A") "89900" "tok_A"
     201
     [("id", .string "int_1"), ("client_secret", .string "sec_1"),
      ("status", .string "REQUIRES_PAYMENT_METHOD")] rfl rfl rfl rfl rfl rfl⟩

/-! ## Runs on values that do not convert to a string, and on long digit runs -/

/-- An `expires_at` that cannot be converted makes the call fail after line 40 has
stored the token: the cache holds `tok_A` with the old expiry. -/
theorem getAccessToken_unprintable_expiry :
    (getAccessToken sampleHost 1000 unprintableExpiryResponse expiredCache).result
        = .error .typeError ∧
      (getAccessToken sampleHost 1000 unprintableExpiryResponse expiredCache).cache
        = { token := .string "tok_A", expiresAt := some 0 } ∧
      (getAccessToken sampleHost 1000 unprintableExpiryResponse expiredCache).calls
        = [NetCall.login] :=
  ⟨rfl, rfl, rfl⟩

/-- An `amount` that cannot be converted is answered with status 500 and nothing is
sent. -/
theorem handler_unprintable_amount :
    (handler sampleHost createdEnv unprintableAmountRequest tokenCache).status = some 500 ∧
      (handler sampleHost createdEnv unprintableAmountRequest tokenCache).calls = [] := by
  refine ⟨by decide, by decide⟩

/-- A token that cannot be converted is answered with status 500 after the login
alone. -/
theorem handler_unprintable_token :
    (handler sampleHost unprintableTokenEnv paymentRequest tokenCache).status = some 500 ∧
      (handler sampleHost unprintableTokenEnv paymentRequest tokenCache).calls
        = [NetCall.login] := by
  refine ⟨by decide, by decide⟩

/-- Beyond `2 ^ 53` the integer read is rounded: `2 ^ 53 + 1` becomes `2 ^ 53`. -/
theorem parseInt_rounds :
    parseInt "9007199254740993" = .finite 9007199254740992 := by
  decide

set_option maxRecDepth 100000 in
/-- A run of 401 digits is beyond the doubles: `parseInt` returns `Infinity`. -/
theorem parseInt_overflows :
    parseInt (String.mk (List.replicate 401 '9')) = .infinity false := by
  decide

end Server
